import Mathlib

/-!
# FlightSurety: the oracle agent (`src/server/server.js`)

A shallow embedding of the oracle agent of the FlightSurety server: the
start-up registration of the oracles (`loadOracles`), the subscription to
the contract events (`eventListeners`) and the answer to an `OracleRequest`
notification (`responseRequest`).

Everything the JavaScript program does to the outside world (a log line, a
transaction, a subscription) is an `Effect`; a run of a function is the list
of the effects it performs, in order. What the outside world answers (the
accounts of the node, the value of `Math.random()`, whether a transaction is
mined or rejected) is an argument of the embedded function.

The contract `FlightSuretyApp` is not part of the JavaScript sources; its
`submit` operation is modelled in the second half of the definitions from
the design document of the repository.
-/

namespace FlightSurety

/-! ## Data -/

/-- An account of the node (an Ethereum address is a 160 bit number). -/
abbrev Address := Nat

/-- The three indexes `getMyIndexes` returns for an oracle: `indexes[0]`,
`indexes[1]`, `indexes[2]`. -/
structure IndexTriple where
  i0 : Nat
  i1 : Nat
  i2 : Nat
deriving DecidableEq, Repr

/-- The `returnValues` of an `OracleRequest` event: the `data` of
`responseRequest`. -/
structure OracleRequest where
  index : Nat
  airline : Address
  flight : String
  timestamp : Nat
deriving DecidableEq, Repr

/-- One transaction `submitOracleResponse(index, airline, flight, timestamp,
statusCode)` sent from the account `sender`. The status code is `none` when
the JavaScript value is `undefined` (a lookup outside the table). -/
structure SubmitCall where
  index : Nat
  airline : Address
  flight : String
  timestamp : Nat
  statusCode : Option Nat
  sender : Address
deriving DecidableEq, Repr

/-- The reasons for which the contract rejects a submission. -/
inductive SubmitError where
  | IndexMismatch
  | UnknownOracle
  | RequestClosed
  | DuplicateSubmission
deriving DecidableEq, Repr

/-- A JavaScript exception: a `TypeError` (a property read on `undefined`), a
rejected `submitOracleResponse` transaction, or any other rejection. -/
inductive Exn where
  | typeError
  | submitFailed (e : SubmitError)
  | other (msg : String)
deriving DecidableEq, Repr

/-- The four contract events `eventListeners` subscribes to. -/
inductive EventKind where
  | InsuranceBought
  | OracleRequest
  | OracleReport
  | FlightStatusInfo
deriving DecidableEq, Repr

/-- The lines the server writes with `console.log`. -/
inductive LogLine where
  /-- The line `Registering oracles...` -/
  | registering
  /-- The line `Oracle registered: o. Indexes: a, b, c` -/
  | oracleRegistered (oracle : Address) (indexes : IndexTriple)
  /-- The line `Oracles registered.` -/
  | oraclesRegistered
  /-- The line `Setting up event listeners...` -/
  | settingUp
  /-- The line `Event listeners set up.` -/
  | listenersSetUp
  /-- The `error` argument of an event callback, logged as it is -/
  | error (e : String)
  /-- The line `Event: OracleRequest. Index: i. Flight: f. Timestamp: t` -/
  | event (index : Nat) (flight : String) (timestamp : Nat)
  /-- The line `Index match for oracle i! Submit response!` -/
  | indexMatch (arrayIndex : Nat)
  /-- The line `Exception caught! : e` of the `catch` block -/
  | exceptionCaught (e : Exn)
deriving DecidableEq, Repr

/-- What the server does to the outside world. `uncaught e` records an
exception that no handler caught (a thrown callback, a rejected promise that
nobody awaits). -/
inductive Effect where
  | log (line : LogLine)
  | registerOracle (sender : Address) (value : Nat)
  | getMyIndexes (sender : Address)
  | submitOracleResponse (call : SubmitCall)
  | subscribe (kind : EventKind)
  | uncaught (e : Exn)
deriving DecidableEq, Repr

/-- The module level variables `oracles` and `oracleIndexes` (a `Map`, read
with `get`: `none` is `undefined`). -/
structure Server where
  oracles : List Address
  oracleIndexes : Address → Option IndexTriple

/-! ## `Math.round(Math.random()*9)`

A binary64 number `x` with `0 ≤ x` is a multiple of `2^(-1074)`; the natural
number `n` stands for the real number `n / 2^1074`. -/

/-- The result of a binary64 operation whose exact result is `n / 2^1074`:
the nearest number with at most 53 significant bits, ties to even
(the numbers met here are far below the overflow threshold). -/
def roundToDouble (n : Nat) : Nat :=
  let s := (Nat.log2 n + 1) - 53
  if s = 0 then n
  else
    let q := n / 2 ^ s
    let r := n % 2 ^ s
    let half := 2 ^ (s - 1)
    if half < r ∨ (r = half ∧ q % 2 = 1) then (q + 1) * 2 ^ s else q * 2 ^ s

/-- The function `Math.round` on a number `n / 2^1074 ≥ 0`: the nearest integer,
ties upwards. -/
def mathRound (n : Nat) : Nat :=
  (2 * n + 2 ^ 1074) / 2 ^ 1075

/-- The table `statusCodes` of `responseRequest`. -/
def statusCodes : List Nat := [0, 10, 20, 30, 40, 50, 20, 20, 20, 20]

/-- The index `rand = Math.round(Math.random()*9)`, where `Math.random()`
returned `m / 2^1074`. -/
def rand (m : Nat) : Nat :=
  mathRound (roundToDouble (m * 9))

/-! ## `responseRequest` -/

/-- The condition `indexes[0] == data.index || indexes[1] == data.index ||
indexes[2] == data.index`. -/
def indexMatches (indexes : IndexTriple) (index : Nat) : Bool :=
  indexes.i0 == index || indexes.i1 == index || indexes.i2 == index

/-- The transaction `submitOracleResponse(data.index, data.airline,
data.flight, data.timestamp, statusCode)` sent from `oracle`. -/
def submitCall (data : OracleRequest) (statusCode : Option Nat) (oracle : Address) :
    SubmitCall :=
  { index := data.index, airline := data.airline, flight := data.flight,
    timestamp := data.timestamp, statusCode := statusCode, sender := oracle }

/-- How the `try` block of one callback of `oracles.forEach` stops at first:
it runs to its end, it throws, or it is suspended at the
`await ... .send(...)` of the transaction it has just sent. -/
inductive TryResult where
  | completed
  | threw (e : Exn)
  | awaiting (call : SubmitCall)
deriving DecidableEq, Repr

/-- The `try` block of the callback for `oracle` at position `arrayIndex`, up
to its first suspension: the effects performed and how it stops.
`oracleIndexes.get(oracle)` is `undefined` for an oracle without an entry, and
`indexes[0]` then throws a `TypeError`. -/
def tryBlock (s : Server) (data : OracleRequest) (statusCode : Option Nat)
    (oracle : Address) (arrayIndex : Nat) : List Effect × TryResult :=
  match s.oracleIndexes oracle with
  | none => ([], TryResult.threw Exn.typeError)
  | some indexes =>
    if indexMatches indexes data.index then
      ([Effect.log (LogLine.indexMatch arrayIndex),
        Effect.submitOracleResponse (submitCall data statusCode oracle)],
       TryResult.awaiting (submitCall data statusCode oracle))
    else ([], TryResult.completed)

/-- The `catch(e)` block: one log line, nothing is thrown again. -/
def catchBlock (e : Exn) : List Effect :=
  [Effect.log (LogLine.exceptionCaught e)]

/-- The part of the callback that runs inside `forEach`: the `try` block up to
its first suspension, and the `catch` block when it threw. -/
def callbackStart (s : Server) (data : OracleRequest) (statusCode : Option Nat)
    (oracle : Address) (arrayIndex : Nat) : List Effect :=
  match tryBlock s data statusCode oracle arrayIndex with
  | (effects, TryResult.threw e) => effects ++ catchBlock e
  | (effects, _) => effects

/-- The part of the callback that runs when the awaited transaction settles:
`send arrayIndex call` is `none` when the transaction went through and
`some e` when it was rejected with `e`, which the `catch` block receives. -/
def callbackResume (s : Server) (send : Nat → SubmitCall → Option Exn)
    (data : OracleRequest) (statusCode : Option Nat) (oracle : Address)
    (arrayIndex : Nat) : List Effect :=
  match tryBlock s data statusCode oracle arrayIndex with
  | (_, TryResult.awaiting call) =>
    match send arrayIndex call with
    | some e => catchBlock e
    | none => []
  | _ => []

/-- The loop `list.forEach((x, index) => f(x, index))` for a callback whose
run is a list of effects: the callbacks run one after the other, the index
counts from `start`. -/
def forEachFrom {α : Type} (f : α → Nat → List Effect) : Nat → List α → List Effect
  | _, [] => []
  | start, x :: rest => f x start ++ forEachFrom f (start + 1) rest

/-- The function `responseRequest(data)`. `m` is the value of `Math.random()`
(as `m / 2^1074`) and `send` the fate of each transaction. The status code is
computed once, before the loop. `oracles.forEach` runs every callback up to
its `await`; the transactions settle afterwards (here in the order of the
list). The `try`/`catch` spans the whole body of the callback, so the run has
no `uncaught` effect of its own. -/
def responseRequest (s : Server) (m : Nat) (send : Nat → SubmitCall → Option Exn)
    (data : OracleRequest) : List Effect :=
  let statusCode := statusCodes[rand m]?
  forEachFrom (callbackStart s data statusCode) 0 s.oracles ++
  forEachFrom (callbackResume s send data statusCode) 0 s.oracles

/-! ## `eventListeners` -/

/-- The function `eventListeners()`: two log lines around the four
subscriptions. -/
def eventListeners : List Effect :=
  [Effect.log LogLine.settingUp,
   Effect.subscribe EventKind.InsuranceBought,
   Effect.subscribe EventKind.OracleRequest,
   Effect.subscribe EventKind.OracleReport,
   Effect.subscribe EventKind.FlightStatusInfo,
   Effect.log LogLine.listenersSetUp]

/-- One invocation of the callback of the `OracleRequest` subscription, with
its arguments `error` and `event` (`none` is `null`/`undefined`), the value
of `Math.random()` and the fate of the transactions of this invocation. -/
structure Delivery where
  error : Option String
  event : Option OracleRequest
  random : Nat
  send : Nat → SubmitCall → Option Exn

/-- The callback of `flightSuretyApp.events.OracleRequest`: it logs the error
if there is one, reads `event.returnValues` (a `TypeError` nobody catches
when there is no event), logs the event and calls `responseRequest(data)`. -/
def onOracleRequest (s : Server) (d : Delivery) : List Effect :=
  (match d.error with
   | some e => [Effect.log (LogLine.error e)]
   | none => []) ++
  (match d.event with
   | none => [Effect.uncaught Exn.typeError]
   | some data =>
     Effect.log (LogLine.event data.index data.flight data.timestamp) ::
       responseRequest s d.random d.send data)

/-- The oracle agent once the listeners are set up and the registrations are
over (`oracles` and `oracleIndexes` no longer change): the callback runs once
for every delivery, one delivery after the other. Nothing is kept from one
delivery to the next. -/
def agent (s : Server) (deliveries : List Delivery) : List Effect :=
  (deliveries.map (onOracleRequest s)).flatten

/-- The transactions `submitOracleResponse` of a run, in the order in which
they are sent. -/
def submits (trace : List Effect) : List SubmitCall :=
  trace.filterMap (fun e =>
    match e with
    | Effect.submitOracleResponse call => some call
    | _ => none)

/-- The request of a transaction: its `index`, `airline`, `flight` and
`timestamp`. -/
def SubmitCall.request (c : SubmitCall) : OracleRequest :=
  { index := c.index, airline := c.airline, flight := c.flight, timestamp := c.timestamp }

/-- The transactions of a run that `oracle` sends. -/
def submitsFrom (oracle : Address) (trace : List Effect) : List SubmitCall :=
  (submits trace).filter (fun c => c.sender == oracle)

/-! ## `loadOracles` -/

/-- The node the server talks to at start-up: the accounts
`web3.eth.getAccounts()` returns, the fate of a `registerOracle` transaction
of a sender with a value (`none`: mined, `some e`: rejected with `e`) and the
answer of the call `getMyIndexes` of a sender. -/
structure Node where
  accounts : List Address
  registerOracle : Address → Nat → Option Exn
  getMyIndexes : Address → Except Exn IndexTriple

/-- The constant `REGISTRATION_FEE = web3.utils.toWei("1", "ether")`, in wei. -/
def REGISTRATION_FEE : Nat := 10 ^ 18

/-- The method `oracleIndexes.set(oracle, indexes)`. -/
def mapSet (oracleIndexes : Address → Option IndexTriple) (oracle : Address)
    (indexes : IndexTriple) : Address → Option IndexTriple :=
  fun a => if a = oracle then some indexes else oracleIndexes a

/-- The callback of `oracles.forEach` in `loadOracles` for `oracle` at position
`index`: the new `oracleIndexes` and the effects. A rejected transaction or
call ends the callback with an exception nobody catches. -/
def registerCallback (node : Node) (oracleIndexes : Address → Option IndexTriple)
    (oracle : Address) (index : Nat) : (Address → Option IndexTriple) × List Effect :=
  match node.registerOracle oracle REGISTRATION_FEE with
  | some e =>
    (oracleIndexes, [Effect.registerOracle oracle REGISTRATION_FEE, Effect.uncaught e])
  | none =>
    match node.getMyIndexes oracle with
    | Except.error e =>
      (oracleIndexes,
       [Effect.registerOracle oracle REGISTRATION_FEE, Effect.getMyIndexes oracle,
        Effect.uncaught e])
    | Except.ok indexes =>
      (mapSet oracleIndexes oracle indexes,
       [Effect.registerOracle oracle REGISTRATION_FEE, Effect.getMyIndexes oracle,
        Effect.log (LogLine.oracleRegistered oracle indexes)] ++
       (if index = 29 then Effect.log LogLine.oraclesRegistered :: eventListeners else []))

/-- The loop `oracles.forEach(async (oracle, index) => ...)` of `loadOracles`,
each callback run to its end before the next one (the callbacks only share
`oracleIndexes`, each writes its own key). -/
def registerAll (node : Node) :
    Nat → List Address → (Address → Option IndexTriple) →
      (Address → Option IndexTriple) × List Effect
  | _, [], oracleIndexes => (oracleIndexes, [])
  | index, oracle :: rest, oracleIndexes =>
    let step := registerCallback node oracleIndexes oracle index
    let tail := registerAll node (index + 1) rest step.1
    (tail.1, step.2 ++ tail.2)

/-- The function `loadOracles()`, from the empty `oracleIndexes`:
`oracles = accounts.slice(20,50)`, then the loop. The result is the state of
the server and the effects. -/
def loadOracles (node : Node) : Server × List Effect :=
  let oracles := (node.accounts.take 50).drop 20
  let run := registerAll node 0 oracles (fun _ => none)
  ({ oracles := oracles, oracleIndexes := run.1 },
   Effect.log LogLine.registering :: run.2)

/-- How many times a run starts the event listeners: the number of
subscriptions to `OracleRequest`. -/
def listenerStarts (trace : List Effect) : Nat :=
  trace.count (Effect.subscribe EventKind.OracleRequest)

/-! ## Derived notions used in the statements -/

/-- Whether `oracle` has an entry in `oracleIndexes` that holds `index`. -/
def answers (s : Server) (index : Nat) (oracle : Address) : Bool :=
  match s.oracleIndexes oracle with
  | some indexes => indexMatches indexes index
  | none => false

/-- The transactions of a run that `oracle` sends for the request `key`. -/
def submitsFor (oracle : Address) (key : OracleRequest) (trace : List Effect) :
    List SubmitCall :=
  (submitsFrom oracle trace).filter (fun c => decide (c.request = key))

/-- The errors of the lines `Exception caught! : e` of a run, in the order in
which they are written. -/
def exceptionLines (trace : List Effect) : List Exn :=
  trace.filterMap (fun e =>
    match e with
    | Effect.log (LogLine.exceptionCaught x) => some x
    | _ => none)

/-- What the transaction of the oracle at a position of the list is rejected
with: `none` when the oracle sends nothing (no entry in `oracleIndexes`, or no
recorded index equal to `index` of the request) and when its transaction is
mined. -/
def rejection (s : Server) (send : Nat → SubmitCall → Option Exn) (data : OracleRequest)
    (statusCode : Option Nat) (position : Nat × Address) : Option Exn :=
  if answers s data.index position.2 then
    send position.1 (submitCall data statusCode position.2)
  else none

/-- Whether the registration of `oracle` goes through on `node`: the
transaction `registerOracle` is mined and the call `getMyIndexes` answers. -/
def registers (node : Node) (oracle : Address) : Bool :=
  match node.registerOracle oracle REGISTRATION_FEE, node.getMyIndexes oracle with
  | none, Except.ok _ => true
  | _, _ => false

/-! ## The operation `submit` of the request ledger

The contract that receives `submitOracleResponse` is not among the sources of
the server. Its operation is taken from the design document: section 3 (data
model), section 4.3 (`submit`) and section 7 (a failed `submit` changes
nothing). -/

/-- Modelled from the spec: the key of a status request, "(index, airline
identity, flight identifier, timestamp)"; the contract that keeps the requests
is missing from the sources. -/
abbrev RequestKey := OracleRequest

/-- Modelled from the spec: the record of a status request of the missing
contract, its "open/closed state" and its "mapping from submitted-status-code
to set of oracle identities that voted for it", kept as the list of the
accepted votes (status code, oracle) in the order of their arrival. -/
structure StatusRequest where
  closed : Bool
  votes : List (Nat × Address)
deriving DecidableEq, Repr

/-- Modelled from the spec: the bucket of a status code in a record of the
missing contract, the oracles that voted for that code. -/
def StatusRequest.bucket (r : StatusRequest) (statusCode : Nat) : List Address :=
  (r.votes.filter (fun v => v.1 == statusCode)).map (fun v => v.2)

/-- Modelled from the spec: the request ledger of the missing contract, the
record of every request key. -/
abbrev RequestLedger := RequestKey → StatusRequest

/-- Modelled from the spec: what an accepted `submit` of the missing contract
returns, "a `finalized` signal carrying the winning status code" or "a
`pending` signal". -/
inductive Signal where
  | pending
  | finalized (statusCode : Nat)
deriving DecidableEq, Repr

/-- Modelled from the spec: one call of `submit` of the missing contract, with
its arguments "(oracleIdentity, index, airline, flight, timestamp,
statusCode)". -/
structure Submission where
  oracle : Address
  index : Nat
  airline : Address
  flight : String
  timestamp : Nat
  statusCode : Nat
deriving DecidableEq, Repr

/-- Modelled from the spec: the key a call of `submit` of the missing contract
is for. -/
def Submission.key (c : Submission) : RequestKey :=
  { index := c.index, airline := c.airline, flight := c.flight, timestamp := c.timestamp }

/-- Modelled from the spec: the operation `submit` of the missing contract
(section 4.3). It "fails with `IndexMismatch` unless `index` is one of the
oracle's registered triple values; fails with `UnknownOracle` if identity is
not registered; fails with `RequestClosed` if the key's request is already
closed [...]; fails with `DuplicateSubmission` if the same oracle already
submitted for this exact key; otherwise appends the oracle to the bucket for
`statusCode`, and if that bucket's size reaches `MIN_RESPONSES` [...] marks
the request closed and returns a `finalized` signal carrying the winning
status code; otherwise returns a `pending` signal". The two checks on the
oracle come first, then the state of the request, then the duplicate, as in
the text; an identity without a triple is the unknown oracle. `MIN_RESPONSES`
is the "consensus threshold, default 3" and `registry` holds the index triples
of the registered oracles. -/
def submit (MIN_RESPONSES : Nat) (registry : Address → Option IndexTriple)
    (ledger : RequestLedger) (c : Submission) : Except SubmitError (RequestLedger × Signal) :=
  match registry c.oracle with
  | none => Except.error SubmitError.UnknownOracle
  | some indexes =>
    if indexMatches indexes c.index = false then Except.error SubmitError.IndexMismatch
    else if (ledger c.key).closed then Except.error SubmitError.RequestClosed
    else if c.oracle ∈ (ledger c.key).votes.map (fun v => v.2) then
      Except.error SubmitError.DuplicateSubmission
    else
      let votes := (ledger c.key).votes ++ [(c.statusCode, c.oracle)]
      if MIN_RESPONSES ≤ (StatusRequest.bucket ⟨false, votes⟩ c.statusCode).length then
        Except.ok (Function.update ledger c.key ⟨true, votes⟩, Signal.finalized c.statusCode)
      else
        Except.ok (Function.update ledger c.key ⟨false, votes⟩, Signal.pending)

/-- Modelled from the spec: the calls of `submit` of the missing contract
processed one after another ("each `submit` call is processed
atomically/serially"); "a failed `submit` must leave the request's vote tally
and closed-state exactly as before the call". -/
def submitAll (MIN_RESPONSES : Nat) (registry : Address → Option IndexTriple) :
    RequestLedger → List Submission → RequestLedger
  | ledger, [] => ledger
  | ledger, c :: rest =>
    match submit MIN_RESPONSES registry ledger c with
    | Except.ok (ledger', _) => submitAll MIN_RESPONSES registry ledger' rest
    | Except.error _ => submitAll MIN_RESPONSES registry ledger rest

/-- The invariant of the record of one request in the ledger: while the request
is open no bucket has `MIN_RESPONSES` members, and never two buckets have. -/
def RequestInv (MIN_RESPONSES : Nat) (r : StatusRequest) : Prop :=
  (r.closed = false → ∀ c, (r.bucket c).length < MIN_RESPONSES) ∧
  (∀ c1 c2, MIN_RESPONSES ≤ (r.bucket c1).length → MIN_RESPONSES ≤ (r.bucket c2).length →
    c1 = c2)

/-- One call processed by `submitAll`. -/
def submitStep (MIN_RESPONSES : Nat) (registry : Address → Option IndexTriple)
    (ledger : RequestLedger) (c : Submission) : RequestLedger :=
  match submit MIN_RESPONSES registry ledger c with
  | Except.ok (ledger', _) => ledger'
  | Except.error _ => ledger

/-! ## Sample inputs -/

/-- An indexes table: oracle 20 holds `[3, 3, 5]`, oracle 21 `[1, 2, 4]`,
oracle 22 `[3, 7, 9]`; no other account has an entry. -/
def sampleIndexes : Address → Option IndexTriple :=
  fun a =>
    if a = 20 then some ⟨3, 3, 5⟩
    else if a = 21 then some ⟨1, 2, 4⟩
    else if a = 22 then some ⟨3, 7, 9⟩
    else none

/-- A server with the oracles 20, 21, 22 and 23; oracle 23 has no entry in
`oracleIndexes`. -/
def sampleServer : Server :=
  { oracles := [20, 21, 22, 23], oracleIndexes := sampleIndexes }

/-- A request with index 3. -/
def sampleRequest : OracleRequest :=
  { index := 3, airline := 1, flight := "AFQM-Udacity-BCND001", timestamp := 1600000000 }

/-- Every transaction is rejected with `RequestClosed`. -/
def allClosed : Nat → SubmitCall → Option Exn :=
  fun _ _ => some (Exn.submitFailed SubmitError.RequestClosed)

/-- Every transaction is mined. -/
def allMined : Nat → SubmitCall → Option Exn :=
  fun _ _ => none

/-- A delivery of `sampleRequest` without error, `Math.random()` is 0 and
every transaction is mined. -/
def sampleDelivery : Delivery :=
  { error := none, event := some sampleRequest, random := 0, send := allMined }

/-- A node with 40 accounts, the numbers 0 to 39, on which every registration
goes through; the account `a` gets the indexes `a % 10`, `(a + 1) % 10` and
`(a + 2) % 10`. -/
def shortNode : Node :=
  { accounts := List.range 40,
    registerOracle := fun _ _ => none,
    getMyIndexes := fun a => Except.ok ⟨a % 10, (a + 1) % 10, (a + 2) % 10⟩ }

/-- A registry in which the oracles 101 to 104 all hold the indexes
`[7, 7, 7]` and the oracle 105 holds `[1, 2, 3]`; no other identity is
registered. -/
def sampleRegistry : Address → Option IndexTriple :=
  fun a =>
    if 101 ≤ a ∧ a ≤ 104 then some ⟨7, 7, 7⟩
    else if a = 105 then some ⟨1, 2, 3⟩
    else none

/-- The ledger in which every request is open and has no vote. -/
def emptyLedger : RequestLedger :=
  fun _ => ⟨false, []⟩

/-- A request key with index 7. -/
def sampleKey : RequestKey :=
  { index := 7, airline := 1, flight := "AFQM-Udacity-BCND001", timestamp := 1600000000 }

/-- The submission of `statusCode` by `oracle` for `sampleKey`. -/
def sampleSubmission (oracle : Address) (statusCode : Nat) : Submission :=
  { oracle := oracle, index := 7, airline := 1, flight := "AFQM-Udacity-BCND001",
    timestamp := 1600000000, statusCode := statusCode }

/-! ## The transactions of `responseRequest` -/

theorem submits_append (a b : List Effect) : submits (a ++ b) = submits a ++ submits b := by
  simp [submits, List.filterMap_append]

theorem submits_callbackStart (s : Server) (data : OracleRequest) (sc : Option Nat)
    (o : Address) (i : Nat) :
    submits (callbackStart s data sc o i) =
      if answers s data.index o then [submitCall data sc o] else [] := by
  unfold callbackStart tryBlock answers
  cases h : s.oracleIndexes o with
  | none => simp [submits, catchBlock]
  | some t =>
    by_cases hm : indexMatches t data.index <;> simp [hm, submits]

theorem submits_callbackResume (s : Server) (send : Nat → SubmitCall → Option Exn)
    (data : OracleRequest) (sc : Option Nat) (o : Address) (i : Nat) :
    submits (callbackResume s send data sc o i) = [] := by
  unfold callbackResume tryBlock
  cases h : s.oracleIndexes o with
  | none => simp [submits]
  | some t =>
    by_cases hm : indexMatches t data.index
    · simp only [hm, if_true]
      cases hs : send i (submitCall data sc o) <;> simp [submits, catchBlock]
    · simp [hm, submits]

theorem submits_forEachFrom_start (s : Server) (data : OracleRequest) (sc : Option Nat)
    (l : List Address) (i : Nat) :
    submits (forEachFrom (callbackStart s data sc) i l) =
      (l.filter (answers s data.index)).map (submitCall data sc) := by
  induction l generalizing i with
  | nil => simp [forEachFrom, submits]
  | cons o rest ih =>
    simp only [forEachFrom, submits_append, submits_callbackStart, ih, List.filter_cons]
    by_cases h : answers s data.index o <;> simp [h]

theorem submits_forEachFrom_resume (s : Server) (send : Nat → SubmitCall → Option Exn)
    (data : OracleRequest) (sc : Option Nat) (l : List Address) (i : Nat) :
    submits (forEachFrom (callbackResume s send data sc) i l) = [] := by
  induction l generalizing i with
  | nil => simp [forEachFrom, submits]
  | cons o rest ih =>
    simp [forEachFrom, submits_append, submits_callbackResume, ih]

theorem submits_responseRequest (s : Server) (m : Nat) (send : Nat → SubmitCall → Option Exn)
    (data : OracleRequest) :
    submits (responseRequest s m send data) =
      (s.oracles.filter (answers s data.index)).map (submitCall data (statusCodes[rand m]?)) := by
  simp [responseRequest, submits_append, submits_forEachFrom_start, submits_forEachFrom_resume]

theorem length_filter_sender (data : OracleRequest) (sc : Option Nat) (p : Address → Bool)
    (o : Address) (l : List Address) :
    (((l.filter p).map (submitCall data sc)).filter (fun c => c.sender == o)).length =
      if p o then l.count o else 0 := by
  induction l with
  | nil => simp
  | cons a rest ih =>
    by_cases hp : p a
    · by_cases ha : a = o
      · subst ha
        simp [List.filter_cons, hp, submitCall] at ih ⊢
        simpa [hp, submitCall] using ih
      · have : ¬ o = a := fun h => ha h.symm
        simp [List.filter_cons, hp, submitCall, ha, List.count_cons, this] at ih ⊢
        simpa [submitCall] using ih
    · by_cases ha : a = o
      · subst ha
        simp [List.filter_cons, hp, submitCall] at ih ⊢
        simpa [hp, submitCall] using ih
      · have : ¬ o = a := fun h => ha h.symm
        simp [List.filter_cons, hp, submitCall, ha, List.count_cons, this] at ih ⊢
        simpa [submitCall] using ih

theorem not_uncaught_forEachFrom_start (s : Server) (data : OracleRequest) (sc : Option Nat)
    (e : Exn) (l : List Address) (i : Nat) :
    Effect.uncaught e ∉ forEachFrom (callbackStart s data sc) i l := by
  induction l generalizing i with
  | nil => simp [forEachFrom]
  | cons o rest ih =>
    simp only [forEachFrom, List.mem_append, not_or]
    refine ⟨?_, ih _⟩
    unfold callbackStart tryBlock
    cases h : s.oracleIndexes o with
    | none => simp [catchBlock]
    | some t => by_cases hm : indexMatches t data.index <;> simp [hm]

theorem not_uncaught_forEachFrom_resume (s : Server) (send : Nat → SubmitCall → Option Exn)
    (data : OracleRequest) (sc : Option Nat) (e : Exn) (l : List Address) (i : Nat) :
    Effect.uncaught e ∉ forEachFrom (callbackResume s send data sc) i l := by
  induction l generalizing i with
  | nil => simp [forEachFrom]
  | cons o rest ih =>
    simp only [forEachFrom, List.mem_append, not_or]
    refine ⟨?_, ih _⟩
    unfold callbackResume tryBlock
    cases h : s.oracleIndexes o with
    | none => simp
    | some t =>
      by_cases hm : indexMatches t data.index
      · simp only [hm, if_true]
        cases hs : send i (submitCall data sc o) <;> simp [catchBlock]
      · simp [hm]

theorem not_uncaught_responseRequest (s : Server) (m : Nat)
    (send : Nat → SubmitCall → Option Exn) (data : OracleRequest) (e : Exn) :
    Effect.uncaught e ∉ responseRequest s m send data := by
  simp [responseRequest, not_uncaught_forEachFrom_start, not_uncaught_forEachFrom_resume]

theorem indexMatches_iff (t : IndexTriple) (index : Nat) :
    indexMatches t index = true ↔ (t.i0 = index ∨ t.i1 = index ∨ t.i2 = index) := by
  simp [indexMatches, or_assoc]

theorem length_submitsFrom_responseRequest (s : Server) (m : Nat)
    (send : Nat → SubmitCall → Option Exn) (data : OracleRequest) (o : Address) :
    (submitsFrom o (responseRequest s m send data)).length =
      if answers s data.index o then s.oracles.count o else 0 := by
  unfold submitsFrom
  rw [submits_responseRequest]
  exact length_filter_sender data _ _ o s.oracles

/-- C1: for an oracle of the list with a recorded index triple, `responseRequest`
sends `submitOracleResponse` from that oracle if and only if `data.index` is one
of the three recorded indexes; a matching oracle gets one transaction for each
of its positions in the list, that is exactly one when the list has no
repetition, also when the index occurs several times in the triple; and every
transaction carries the index, airline, flight and timestamp of `data`. -/
theorem responseRequest_submits_iff_index_matches (s : Server) (m : Nat)
    (send : Nat → SubmitCall → Option Exn) (data : OracleRequest)
    (o : Address) (t : IndexTriple)
    (hmem : o ∈ s.oracles) (hrec : s.oracleIndexes o = some t) :
    ((∃ c ∈ submits (responseRequest s m send data), c.sender = o) ↔
        (t.i0 = data.index ∨ t.i1 = data.index ∨ t.i2 = data.index)) ∧
    ((t.i0 = data.index ∨ t.i1 = data.index ∨ t.i2 = data.index) →
        (submitsFrom o (responseRequest s m send data)).length = s.oracles.count o) ∧
    (s.oracles.Nodup → (t.i0 = data.index ∨ t.i1 = data.index ∨ t.i2 = data.index) →
        (submitsFrom o (responseRequest s m send data)).length = 1) ∧
    (∀ c ∈ submits (responseRequest s m send data),
        c.index = data.index ∧ c.airline = data.airline ∧ c.flight = data.flight ∧
          c.timestamp = data.timestamp) := by
  have hans : answers s data.index o = true ↔
      (t.i0 = data.index ∨ t.i1 = data.index ∨ t.i2 = data.index) := by
    simp [answers, hrec, indexMatches_iff]
  refine ⟨?_, ?_, ?_, ?_⟩
  · rw [submits_responseRequest, ← hans]
    constructor
    · rintro ⟨c, hc, hs⟩
      simp only [List.mem_map, List.mem_filter] at hc
      obtain ⟨a, ⟨_, ha⟩, rfl⟩ := hc
      simpa [submitCall] using hs ▸ ha
    · intro h
      exact ⟨submitCall data _ o, List.mem_map.mpr ⟨o, List.mem_filter.mpr ⟨hmem, h⟩, rfl⟩, rfl⟩
  · intro h
    rw [length_submitsFrom_responseRequest, if_pos (hans.mpr h)]
  · intro hnd h
    rw [length_submitsFrom_responseRequest, if_pos (hans.mpr h)]
    exact List.count_eq_one_of_mem hnd hmem
  · intro c hc
    rw [submits_responseRequest] at hc
    simp only [List.mem_map] at hc
    obtain ⟨a, _, rfl⟩ := hc
    simp [submitCall]

/-- C1, at a concrete input: oracle 20 holds the index 3 twice and gets exactly
one transaction. -/
theorem responseRequest_submits_iff_index_matches_witness :
    (submitsFrom 20 (responseRequest sampleServer 0 allMined sampleRequest)).length = 1 :=
  (responseRequest_submits_iff_index_matches sampleServer 0 allMined sampleRequest 20 ⟨3, 3, 5⟩
    (by decide) (by decide)).2.2.1 (by decide) (by decide)

/-- C9: whatever the fate of the transactions, `responseRequest` lets no
exception escape, it sends the same transactions as with any other fate, and
every oracle of the list whose recorded triple holds `data.index` gets its
transaction. -/
theorem responseRequest_failure_isolation (s : Server) (m : Nat)
    (send send' : Nat → SubmitCall → Option Exn) (data : OracleRequest) :
    (∀ e, Effect.uncaught e ∉ responseRequest s m send data) ∧
    submits (responseRequest s m send data) = submits (responseRequest s m send' data) ∧
    (∀ o t, o ∈ s.oracles → s.oracleIndexes o = some t →
        (t.i0 = data.index ∨ t.i1 = data.index ∨ t.i2 = data.index) →
        submitCall data (statusCodes[rand m]?) o ∈ submits (responseRequest s m send data)) := by
  refine ⟨fun e => not_uncaught_responseRequest s m send data e, ?_, ?_⟩
  · rw [submits_responseRequest, submits_responseRequest]
  · intro o t hmem hrec h
    rw [submits_responseRequest]
    refine List.mem_map.mpr ⟨o, List.mem_filter.mpr ⟨hmem, ?_⟩, rfl⟩
    simp [answers, hrec, indexMatches_iff, h]

/-- C9, at a concrete input: every transaction is rejected, and oracle 22 still
gets its transaction. -/
theorem responseRequest_failure_isolation_witness :
    submitCall sampleRequest (statusCodes[rand 0]?) 22 ∈
      submits (responseRequest sampleServer 0 allClosed sampleRequest) :=
  (responseRequest_failure_isolation sampleServer 0 allClosed allMined sampleRequest).2.2
    22 ⟨3, 7, 9⟩ (by decide) (by decide) (by decide)

/-- C10: an oracle without an entry in `oracleIndexes` gets no transaction, no
exception escapes `responseRequest`, and the transactions sent are those of
the run in which that oracle is taken out of the list. -/
theorem responseRequest_skips_unrecorded_oracle (s : Server) (m : Nat)
    (send send' : Nat → SubmitCall → Option Exn) (data : OracleRequest) (o : Address)
    (hnone : s.oracleIndexes o = none) :
    submitsFrom o (responseRequest s m send data) = [] ∧
    (∀ e, Effect.uncaught e ∉ responseRequest s m send data) ∧
    submits (responseRequest s m send data) =
      submits (responseRequest
        { oracles := s.oracles.filter (fun a => a != o), oracleIndexes := s.oracleIndexes }
        m send' data) := by
  have hans : answers s data.index o = false := by simp [answers, hnone]
  refine ⟨?_, fun e => not_uncaught_responseRequest s m send data e, ?_⟩
  · apply List.eq_nil_of_length_eq_zero
    rw [length_submitsFrom_responseRequest, hans]
    simp
  · rw [submits_responseRequest, submits_responseRequest]
    congr 1
    simp only [List.filter_filter]
    apply List.filter_congr
    intro a _
    by_cases ha : a = o
    · subst ha
      simpa [answers] using hans
    · simp [answers, ha]

/-- C10, at a concrete input: oracle 23 has no entry and gets no transaction. -/
theorem responseRequest_skips_unrecorded_oracle_witness :
    submitsFrom 23 (responseRequest sampleServer 0 allMined sampleRequest) = [] :=
  (responseRequest_skips_unrecorded_oracle sampleServer 0 allMined allMined sampleRequest 23
    (by decide)).1

theorem statusCode_of_mem_submits (s : Server) (m : Nat)
    (send : Nat → SubmitCall → Option Exn) (data : OracleRequest) (c : SubmitCall)
    (hc : c ∈ submits (responseRequest s m send data)) :
    c.statusCode = statusCodes[rand m]? := by
  rw [submits_responseRequest] at hc
  obtain ⟨a, _, rfl⟩ := List.mem_map.mp hc
  rfl

/-- C3, as the code has it: every transaction of one run of `responseRequest`
carries the same status code, the one drawn once before the loop. -/
theorem responseRequest_one_statusCode_for_all (s : Server) (m : Nat)
    (send : Nat → SubmitCall → Option Exn) (data : OracleRequest) :
    ∀ c ∈ submits (responseRequest s m send data), c.statusCode = statusCodes[rand m]? :=
  fun c hc => statusCode_of_mem_submits s m send data c hc

/-- C3, at a concrete input: the transaction of oracle 20 is sent and carries the
status code drawn before the loop. -/
theorem responseRequest_one_statusCode_for_all_witness :
    submitCall sampleRequest (statusCodes[rand 0]?) 20 ∈
      submits (responseRequest sampleServer 0 allMined sampleRequest) ∧
    (submitCall sampleRequest (statusCodes[rand 0]?) 20).statusCode = statusCodes[rand 0]? :=
  have hmem : submitCall sampleRequest (statusCodes[rand 0]?) 20 ∈
      submits (responseRequest sampleServer 0 allMined sampleRequest) := by
    rw [submits_responseRequest]; exact List.mem_map.mpr ⟨20, by decide, rfl⟩
  ⟨hmem, responseRequest_one_statusCode_for_all sampleServer 0 allMined sampleRequest
    (submitCall sampleRequest (statusCodes[rand 0]?) 20) hmem⟩

/-- C3 refuted: the oracles 20 and 22 of the sample server both answer the
sample request, and for no value of `Math.random()` and no fate of the
transactions do two transactions of that run carry different status codes. -/
theorem responseRequest_no_two_statusCodes :
    (∀ (m : Nat) (send : Nat → SubmitCall → Option Exn),
        submitCall sampleRequest (statusCodes[rand m]?) 20 ∈
          submits (responseRequest sampleServer m send sampleRequest) ∧
        submitCall sampleRequest (statusCodes[rand m]?) 22 ∈
          submits (responseRequest sampleServer m send sampleRequest)) ∧
    ¬ ∃ (m : Nat) (send : Nat → SubmitCall → Option Exn) (c1 c2 : SubmitCall),
        c1 ∈ submits (responseRequest sampleServer m send sampleRequest) ∧
        c2 ∈ submits (responseRequest sampleServer m send sampleRequest) ∧
        c1.statusCode ≠ c2.statusCode := by
  constructor
  · intro m send
    rw [submits_responseRequest]
    exact ⟨List.mem_map.mpr ⟨20, by decide, rfl⟩, List.mem_map.mpr ⟨22, by decide, rfl⟩⟩
  · rintro ⟨m, send, c1, c2, h1, h2, hne⟩
    exact hne ((statusCode_of_mem_submits _ m send _ c1 h1).trans
      (statusCode_of_mem_submits _ m send _ c2 h2).symm)

/-! ## The log of `responseRequest` and repeated deliveries -/

theorem mem_forEachFrom_start_exception (s : Server) (data : OracleRequest) (sc : Option Nat)
    (e : Exn) (l : List Address) (i : Nat) :
    Effect.log (LogLine.exceptionCaught e) ∈ forEachFrom (callbackStart s data sc) i l ↔
      (e = Exn.typeError ∧ ∃ o ∈ l, s.oracleIndexes o = none) := by
  induction l generalizing i with
  | nil => simp [forEachFrom]
  | cons a rest ih =>
    simp only [forEachFrom, List.mem_append, ih, List.mem_cons, exists_eq_or_imp]
    have hhead : Effect.log (LogLine.exceptionCaught e) ∈ callbackStart s data sc a i ↔
        (e = Exn.typeError ∧ s.oracleIndexes a = none) := by
      unfold callbackStart tryBlock
      cases h : s.oracleIndexes a with
      | none => simp [catchBlock]
      | some t => by_cases hm : indexMatches t data.index <;> simp [hm]
    rw [hhead]
    tauto

theorem mem_forEachFrom_resume_exception (s : Server) (send : Nat → SubmitCall → Option Exn)
    (data : OracleRequest) (sc : Option Nat) (e : Exn) (l : List Address) (i : Nat) :
    Effect.log (LogLine.exceptionCaught e) ∈ forEachFrom (callbackResume s send data sc) i l ↔
      ∃ j o, l[j]? = some o ∧ answers s data.index o = true ∧
        send (i + j) (submitCall data sc o) = some e := by
  induction l generalizing i with
  | nil => simp [forEachFrom]
  | cons a rest ih =>
    simp only [forEachFrom, List.mem_append, ih]
    have hhead : Effect.log (LogLine.exceptionCaught e) ∈ callbackResume s send data sc a i ↔
        (answers s data.index a = true ∧ send i (submitCall data sc a) = some e) := by
      unfold callbackResume tryBlock answers
      cases h : s.oracleIndexes a with
      | none => simp
      | some t =>
        by_cases hm : indexMatches t data.index
        · simp only [hm, if_true]
          cases hs : send i (submitCall data sc a) <;> simp [catchBlock, eq_comm]
        · simp [hm]
    rw [hhead]
    constructor
    · rintro (⟨h1, h2⟩ | ⟨j, o, h1, h2, h3⟩)
      · exact ⟨0, a, by simp, h1, by simpa using h2⟩
      · exact ⟨j + 1, o, by simpa using h1, h2, by rw [← h3]; congr 1; omega⟩
    · rintro ⟨j, o, h1, h2, h3⟩
      cases j with
      | zero =>
        simp at h1
        subst h1
        exact Or.inl ⟨h2, by simpa using h3⟩
      | succ j =>
        exact Or.inr ⟨j, o, by simpa using h1, h2, by rw [← h3]; congr 1; omega⟩

theorem mem_responseRequest_exception (s : Server) (m : Nat)
    (send : Nat → SubmitCall → Option Exn) (data : OracleRequest) (e : Exn) :
    Effect.log (LogLine.exceptionCaught e) ∈ responseRequest s m send data ↔
      ((e = Exn.typeError ∧ ∃ o ∈ s.oracles, s.oracleIndexes o = none) ∨
       (∃ i o, s.oracles[i]? = some o ∧ answers s data.index o = true ∧
          send i (submitCall data (statusCodes[rand m]?) o) = some e)) := by
  simp only [responseRequest, List.mem_append, mem_forEachFrom_start_exception,
    mem_forEachFrom_resume_exception, Nat.zero_add]

theorem exceptionLines_append (a b : List Effect) :
    exceptionLines (a ++ b) = exceptionLines a ++ exceptionLines b := by
  simp [exceptionLines, List.filterMap_append]

theorem exceptionLines_callbackStart (s : Server) (data : OracleRequest) (sc : Option Nat)
    (o : Address) (i : Nat) :
    exceptionLines (callbackStart s data sc o i) =
      if (s.oracleIndexes o).isNone then [Exn.typeError] else [] := by
  unfold callbackStart tryBlock
  cases h : s.oracleIndexes o with
  | none => simp [exceptionLines, catchBlock]
  | some t => by_cases hm : indexMatches t data.index <;> simp [hm, exceptionLines]

theorem exceptionLines_callbackResume (s : Server) (send : Nat → SubmitCall → Option Exn)
    (data : OracleRequest) (sc : Option Nat) (o : Address) (i : Nat) :
    exceptionLines (callbackResume s send data sc o i) =
      (rejection s send data sc (i, o)).toList := by
  unfold callbackResume tryBlock rejection answers
  cases h : s.oracleIndexes o with
  | none => simp [exceptionLines]
  | some t =>
    by_cases hm : indexMatches t data.index
    · simp only [hm, if_true]
      cases hs : send i (submitCall data sc o) <;> simp [exceptionLines, catchBlock]
    · simp [hm, exceptionLines]

theorem exceptionLines_forEachFrom_start (s : Server) (data : OracleRequest) (sc : Option Nat)
    (l : List Address) (i : Nat) :
    exceptionLines (forEachFrom (callbackStart s data sc) i l) =
      List.replicate (l.countP (fun o => (s.oracleIndexes o).isNone)) Exn.typeError := by
  induction l generalizing i with
  | nil => simp [forEachFrom, exceptionLines]
  | cons o rest ih =>
    simp only [forEachFrom, exceptionLines_append, exceptionLines_callbackStart, ih,
      List.countP_cons]
    by_cases h : (s.oracleIndexes o).isNone = true
    · simp only [h, if_true, List.replicate_succ]
      rfl
    · simp [h]

theorem exceptionLines_forEachFrom_resume (s : Server) (send : Nat → SubmitCall → Option Exn)
    (data : OracleRequest) (sc : Option Nat) (l : List Address) (i : Nat) :
    exceptionLines (forEachFrom (callbackResume s send data sc) i l) =
      (l.enumFrom i).filterMap (rejection s send data sc) := by
  induction l generalizing i with
  | nil => simp [forEachFrom, exceptionLines]
  | cons o rest ih =>
    simp only [forEachFrom, exceptionLines_append, exceptionLines_callbackResume, ih,
      List.enumFrom_cons, List.filterMap_cons]
    cases h : rejection s send data sc (i, o) <;> simp

theorem exceptionLines_responseRequest (s : Server) (m : Nat)
    (send : Nat → SubmitCall → Option Exn) (data : OracleRequest) :
    exceptionLines (responseRequest s m send data) =
      List.replicate (s.oracles.countP (fun o => (s.oracleIndexes o).isNone)) Exn.typeError ++
      s.oracles.enum.filterMap (rejection s send data (statusCodes[rand m]?)) := by
  simp only [responseRequest, exceptionLines_append, exceptionLines_forEachFrom_start,
    exceptionLines_forEachFrom_resume, List.enum]

/-- C5, as the code has it: the lines `Exception caught! : e` that
`responseRequest` writes are, each counted as often as it is written and in
whatever order, one line with a `TypeError` for every position of the list
whose oracle has no entry in `oracleIndexes`, and one line with the error `e`
for every position whose oracle sent a transaction that was rejected with `e`,
whatever `e` is; there is no other such line, and no exception escapes. -/
theorem responseRequest_logs_every_exception (s : Server) (m : Nat)
    (send : Nat → SubmitCall → Option Exn) (data : OracleRequest) :
    List.Perm (exceptionLines (responseRequest s m send data))
      (List.replicate (s.oracles.countP (fun o => (s.oracleIndexes o).isNone)) Exn.typeError ++
        s.oracles.enum.filterMap (rejection s send data (statusCodes[rand m]?))) ∧
    (∀ e, (exceptionLines (responseRequest s m send data)).count e =
      (if e = Exn.typeError then s.oracles.countP (fun o => (s.oracleIndexes o).isNone) else 0) +
      (s.oracles.enum.filter
        (fun p => decide (rejection s send data (statusCodes[rand m]?) p = some e))).length) ∧
    (∀ e, Effect.uncaught e ∉ responseRequest s m send data) := by
  refine ⟨?_, ?_, fun e => not_uncaught_responseRequest s m send data e⟩
  · rw [exceptionLines_responseRequest]
  · intro e
    rw [exceptionLines_responseRequest, List.count_append, List.count_replicate]
    congr 1
    · by_cases he : e = Exn.typeError
      · subst he; simp
      · have : ¬ Exn.typeError = e := fun h => he h.symm
        simp [he, this]
    · generalize s.oracles.enum = l
      induction l with
      | nil => simp
      | cons p rest ih =>
        simp only [List.filterMap_cons, List.filter_cons]
        cases hp : rejection s send data (statusCodes[rand m]?) p with
        | none => simpa using ih
        | some x =>
          by_cases hx : x = e
          · subst hx; simp [ih]
          · have : ¬ some x = some e := fun h => hx (Option.some.inj h)
            simp [List.count_cons, hx, ih]

/-- The sample run in which every transaction is rejected: one `TypeError` line
for oracle 23 and one `RequestClosed` line for each of the oracles 20 and 22. -/
theorem exceptionLines_sample_run :
    exceptionLines (responseRequest sampleServer 0 allClosed sampleRequest) =
      [Exn.typeError, Exn.submitFailed SubmitError.RequestClosed,
        Exn.submitFailed SubmitError.RequestClosed] := by
  simp [responseRequest, forEachFrom, callbackStart, callbackResume, tryBlock, catchBlock,
    sampleServer, sampleIndexes, sampleRequest, allClosed, indexMatches, exceptionLines]

/-- C5 refuted: the transaction of an answering oracle is rejected with
`RequestClosed` and `responseRequest` writes the line
`Exception caught! : RequestClosed`. -/
theorem responseRequest_logs_RequestClosed :
    Effect.log (LogLine.exceptionCaught (Exn.submitFailed SubmitError.RequestClosed)) ∈
      responseRequest sampleServer 0 allClosed sampleRequest := by
  simp [responseRequest, forEachFrom, callbackStart, callbackResume, tryBlock, catchBlock,
    sampleServer, sampleIndexes, sampleRequest, allClosed, indexMatches]

theorem submits_onOracleRequest (s : Server) (d : Delivery) :
    submits (onOracleRequest s d) =
      match d.event with
      | none => []
      | some data => submits (responseRequest s d.random d.send data) := by
  unfold onOracleRequest
  cases d.error <;> cases d.event <;> simp [submits]

theorem length_submitsFor_responseRequest (s : Server) (m : Nat)
    (send : Nat → SubmitCall → Option Exn) (data key : OracleRequest) (o : Address) :
    (submitsFor o key (responseRequest s m send data)).length =
      if data = key then (if answers s key.index o then s.oracles.count o else 0) else 0 := by
  have hreq : ∀ c ∈ submitsFrom o (responseRequest s m send data), c.request = data := by
    intro c hc
    have hc' : c ∈ submits (responseRequest s m send data) := (List.mem_filter.mp hc).1
    rw [submits_responseRequest] at hc'
    obtain ⟨a, _, rfl⟩ := List.mem_map.mp hc'
    rfl
  unfold submitsFor
  by_cases hk : data = key
  · subst hk
    rw [if_pos rfl, ← length_submitsFrom_responseRequest s m send data o]
    congr 1
    apply List.filter_eq_self.mpr
    intro c hc
    simp [hreq c hc]
  · rw [if_neg hk]
    apply List.length_eq_zero.mpr
    apply List.filter_eq_nil_iff.mpr
    intro c hc
    simp [hreq c hc, hk]

/-- C2, as the code has it: the agent keeps no memory of the requests it has
answered. The number of transactions an oracle sends for a request is the
number of deliveries of that request, times the number of positions of the
oracle in the list when its recorded triple holds the index of the request
(and zero when it does not). -/
theorem agent_submits_once_per_delivery (s : Server) (deliveries : List Delivery)
    (o : Address) (key : OracleRequest) :
    (submitsFor o key (agent s deliveries)).length =
      deliveries.countP (fun d => decide (d.event = some key)) *
        (if answers s key.index o then s.oracles.count o else 0) := by
  induction deliveries with
  | nil => simp [agent, submitsFor, submitsFrom, submits]
  | cons d rest ih =>
    have hsplit : submitsFor o key (agent s (d :: rest)) =
        submitsFor o key (onOracleRequest s d) ++ submitsFor o key (agent s rest) := by
      simp [agent, submitsFor, submitsFrom, submits_append]
    rw [hsplit, List.length_append, ih, List.countP_cons, Nat.add_mul, Nat.add_comm]
    congr 1
    unfold submitsFor submitsFrom
    rw [submits_onOracleRequest]
    cases hev : d.event with
    | none => simp
    | some data =>
      have := length_submitsFor_responseRequest s d.random d.send data key o
      unfold submitsFor submitsFrom at this
      simp only [this]
      by_cases hk : data = key <;> simp [hk]

/-- C2 refuted: the sample request is delivered twice and oracle 20 sends two
transactions for it. -/
theorem agent_submits_twice_for_repeated_delivery :
    ¬ (submitsFor 20 sampleRequest (agent sampleServer [sampleDelivery, sampleDelivery])).length
        ≤ 1 := by
  have h : (submitsFor 20 sampleRequest
      (agent sampleServer [sampleDelivery, sampleDelivery])).length = 2 := by
    simp [agent, onOracleRequest, sampleDelivery, responseRequest, forEachFrom, callbackStart,
      callbackResume, tryBlock, catchBlock, sampleServer, sampleIndexes, sampleRequest,
      allMined, indexMatches, submitsFor, submitsFrom, submits, SubmitCall.request, submitCall]
  omega

/-! ## The status code and the start-up -/

theorem roundToDouble_le (e n : Nat) (h : n < 9 * 2 ^ e) : roundToDouble n ≤ 9 * 2 ^ e := by
  unfold roundToDouble
  simp only
  by_cases hs : n.log2 + 1 - 53 = 0
  · rw [if_pos hs]; exact Nat.le_of_lt h
  · rw [if_neg hs]
    have hn : n ≠ 0 := by
      rintro rfl
      exact hs (by simp [Nat.log2])
    have hlog : n.log2 < e + 4 := by
      rw [Nat.log2_lt hn]
      calc n < 9 * 2 ^ e := h
        _ ≤ 16 * 2 ^ e := Nat.mul_le_mul_right _ (by decide)
        _ = 2 ^ (e + 4) := by rw [Nat.pow_add]; ring
    have hse : n.log2 + 1 - 53 ≤ e := by omega
    generalize n.log2 + 1 - 53 = s at hs hse
    have hsplit : 9 * 2 ^ e = 2 ^ s * (9 * 2 ^ (e - s)) := by
      have : 2 ^ e = 2 ^ s * 2 ^ (e - s) := by
        rw [← Nat.pow_add]; congr 1; omega
      rw [this]; ring
    have hq : n / 2 ^ s < 9 * 2 ^ (e - s) := by
      apply Nat.div_lt_of_lt_mul
      rw [← hsplit]; exact h
    have hup : (n / 2 ^ s + 1) * 2 ^ s ≤ 9 * 2 ^ e := by
      rw [hsplit, Nat.mul_comm (2 ^ s)]
      exact Nat.mul_le_mul_right _ hq
    split
    · exact hup
    · exact le_trans (Nat.mul_le_mul_right _ (Nat.le_succ _)) hup

theorem rand_le_nine (m : Nat) (hm : m < 2 ^ 1074) : rand m ≤ 9 := by
  have h9 : m * 9 < 9 * 2 ^ 1074 := by omega
  have hr := roundToDouble_le 1074 (m * 9) h9
  unfold rand mathRound
  have hp : (2 : Nat) ^ 1075 = 2 * 2 ^ 1074 := by
    rw [show (1075 : Nat) = 1074 + 1 from rfl, Nat.pow_succ]; ring
  rw [hp]
  have hpos : 0 < (2 : Nat) ^ 1074 := by apply Nat.pow_pos; decide
  generalize (2 : Nat) ^ 1074 = P at hr hpos ⊢
  generalize roundToDouble (m * 9) = N at hr ⊢
  apply Nat.le_of_lt_succ
  rw [Nat.div_lt_iff_lt_mul (by omega)]
  omega

theorem statusCodes_entries :
    ∀ i, i ≤ 9 → ∃ c, statusCodes[i]? = some c ∧
      (c = 0 ∨ c = 10 ∨ c = 20 ∨ c = 30 ∨ c = 40 ∨ c = 50) ∧
      (c = 20 ↔ (i = 2 ∨ i = 6 ∨ i = 7 ∨ i = 8 ∨ i = 9)) := by
  intro i hi
  interval_cases i <;> simp [statusCodes]

/-- C7: for every value `m / 2^1074` in `[0, 1)` of `Math.random()`, the index
`Math.round(Math.random()*9)` is at most 9, the lookup in `statusCodes` yields an
entry `c` of the table, one of 0, 10, 20, 30, 40 and 50, which is 20 exactly
when the index is 2, 6, 7, 8 or 9, and every transaction of `responseRequest`
carries that `c`. -/
theorem responseRequest_statusCode_in_table (m : Nat) (hm : m < 2 ^ 1074) :
    rand m ≤ 9 ∧
    ∃ c, statusCodes[rand m]? = some c ∧
      (c = 0 ∨ c = 10 ∨ c = 20 ∨ c = 30 ∨ c = 40 ∨ c = 50) ∧
      (c = 20 ↔ (rand m = 2 ∨ rand m = 6 ∨ rand m = 7 ∨ rand m = 8 ∨ rand m = 9)) ∧
      ∀ (s : Server) (send : Nat → SubmitCall → Option Exn) (data : OracleRequest),
        ∀ call ∈ submits (responseRequest s m send data), call.statusCode = some c := by
  have hle := rand_le_nine m hm
  obtain ⟨c, hc, hset, h20⟩ := statusCodes_entries (rand m) hle
  refine ⟨hle, c, hc, hset, h20, ?_⟩
  intro s send data call hcall
  rw [statusCode_of_mem_submits s m send data call hcall, hc]

/-- C7, at a concrete input: `Math.random()` returns one half. -/
theorem responseRequest_statusCode_in_table_witness :
    rand (2 ^ 1073) ≤ 9 :=
  (responseRequest_statusCode_in_table (2 ^ 1073)
    (by apply Nat.pow_lt_pow_right <;> decide)).1

/-- C6 at the failing input: on a node with 40 accounts `loadOracles` takes the
twenty accounts 20 to 39 as oracles, registers each of them with
`REGISTRATION_FEE`, records its indexes, and never starts the event listeners. -/
theorem loadOracles_short_node_never_listens :
    (loadOracles shortNode).1.oracles = List.range' 20 20 ∧
    (∀ o ∈ (loadOracles shortNode).1.oracles,
      Effect.registerOracle o REGISTRATION_FEE ∈ (loadOracles shortNode).2 ∧
      (loadOracles shortNode).1.oracleIndexes o = some ⟨o % 10, (o + 1) % 10, (o + 2) % 10⟩) ∧
    listenerStarts (loadOracles shortNode).2 = 0 := by
  refine ⟨by decide, ?_, by decide⟩
  decide

theorem listenerStarts_append (a b : List Effect) :
    listenerStarts (a ++ b) = listenerStarts a + listenerStarts b := by
  simp [listenerStarts, List.count_append]

theorem listenerStarts_registerCallback (node : Node) (m : Address → Option IndexTriple)
    (o : Address) (i : Nat) :
    listenerStarts (registerCallback node m o i).2 =
      if i = 29 ∧ registers node o = true then 1 else 0 := by
  unfold registerCallback registers
  cases h1 : node.registerOracle o REGISTRATION_FEE with
  | some e => simp [listenerStarts]
  | none =>
    cases h2 : node.getMyIndexes o with
    | error e => simp [listenerStarts]
    | ok t =>
      by_cases hi : i = 29
      · simp [listenerStarts, hi, eventListeners]
      · simp [listenerStarts, hi]

theorem listenerStarts_registerAll (node : Node) (l : List Address) (i : Nat)
    (m : Address → Option IndexTriple) :
    listenerStarts (registerAll node i l m).2 =
      if i ≤ 29 then
        (match l[29 - i]? with
         | some o => if registers node o = true then 1 else 0
         | none => 0)
      else 0 := by
  induction l generalizing i m with
  | nil => simp [registerAll, listenerStarts]
  | cons o rest ih =>
    simp only [registerAll, listenerStarts_append, listenerStarts_registerCallback, ih]
    rcases Nat.lt_trichotomy i 29 with hlt | heq | hgt
    · have h1 : ¬ i = 29 := by omega
      have h2 : i + 1 ≤ 29 := by omega
      have h3 : i ≤ 29 := by omega
      have h4 : 29 - i = (29 - (i + 1)) + 1 := by omega
      simp only [h1, false_and, if_false, h2, h3, if_true, Nat.zero_add]
      rw [h4, List.getElem?_cons_succ]
    · subst heq
      simp
    · have h1 : ¬ i = 29 := by omega
      have h2 : ¬ i + 1 ≤ 29 := by omega
      have h3 : ¬ i ≤ 29 := by omega
      simp [h1, h2, h3]

/-- How often `loadOracles` starts the event listeners: once when the node has a
fiftieth account and the registration of that account goes through, and never
otherwise. -/
theorem listenerStarts_loadOracles (node : Node) :
    listenerStarts (loadOracles node).2 =
      match node.accounts[49]? with
      | some o => if registers node o = true then 1 else 0
      | none => 0 := by
  have hget : ((node.accounts.take 50).drop 20)[29]? = node.accounts[49]? := by
    rw [List.getElem?_drop, List.getElem?_take]
    simp
  simp only [loadOracles]
  rw [show ∀ t, listenerStarts (Effect.log LogLine.registering :: t) = listenerStarts t from
    fun t => by simp [listenerStarts]]
  rw [listenerStarts_registerAll]
  simp only [Nat.zero_le, if_true, Nat.sub_zero, hget]

/-- With fewer than fifty accounts `loadOracles` never starts the event
listeners. -/
theorem listenerStarts_loadOracles_of_few_accounts (node : Node)
    (h : node.accounts.length < 50) : listenerStarts (loadOracles node).2 = 0 := by
  rw [listenerStarts_loadOracles]
  have : node.accounts[49]? = none := List.getElem?_eq_none (by omega)
  rw [this]

/-! ## The operation `submit` -/

theorem submitAll_cons (MIN : Nat) (reg : Address → Option IndexTriple) (L : RequestLedger)
    (c : Submission) (rest : List Submission) :
    submitAll MIN reg L (c :: rest) = submitAll MIN reg (submitStep MIN reg L c) rest := by
  simp only [submitAll, submitStep]
  cases h : submit MIN reg L c with
  | error e => rfl
  | ok p => rfl

theorem bucket_append (votes : List (Nat × Address)) (b : Bool) (code c : Nat) (o : Address) :
    (StatusRequest.bucket ⟨b, votes ++ [(code, o)]⟩ c).length =
      (StatusRequest.bucket ⟨false, votes⟩ c).length + (if code = c then 1 else 0) := by
  unfold StatusRequest.bucket
  by_cases h : code = c <;> simp [List.filter_append, h]

theorem submitStep_cases (MIN : Nat) (reg : Address → Option IndexTriple) (L : RequestLedger)
    (c : Submission) :
    submitStep MIN reg L c = L ∨
    ((L c.key).closed = false ∧
      submitStep MIN reg L c = Function.update L c.key
        ⟨decide (MIN ≤ (StatusRequest.bucket ⟨false, (L c.key).votes ++ [(c.statusCode, c.oracle)]⟩
            c.statusCode).length),
         (L c.key).votes ++ [(c.statusCode, c.oracle)]⟩) := by
  unfold submitStep submit
  cases hreg : reg c.oracle with
  | none => exact Or.inl rfl
  | some t =>
    simp only
    split_ifs with h1 h2 h3 h4
    · exact Or.inl rfl
    · exact Or.inl rfl
    · exact Or.inl rfl
    · right
      refine ⟨by simpa using h2, ?_⟩
      simp [h4]
    · right
      refine ⟨by simpa using h2, ?_⟩
      simp [h4]

theorem submitStep_closed (MIN : Nat) (reg : Address → Option IndexTriple) (L : RequestLedger)
    (c : Submission) (key : RequestKey) (hclosed : (L key).closed = true) :
    submitStep MIN reg L c key = L key := by
  rcases submitStep_cases MIN reg L c with h | ⟨hopen, h⟩
  · rw [h]
  · rw [h]
    by_cases hk : key = c.key
    · subst hk
      rw [hclosed] at hopen
      exact absurd hopen (by decide)
    · rw [Function.update_noteq hk]

theorem submitStep_inv (MIN : Nat) (reg : Address → Option IndexTriple) (L : RequestLedger)
    (c : Submission) (key : RequestKey) (hinv : RequestInv MIN (L key)) :
    RequestInv MIN (submitStep MIN reg L c key) := by
  rcases submitStep_cases MIN reg L c with h | ⟨hopen, h⟩
  · rw [h]; exact hinv
  · rw [h]
    by_cases hk : key = c.key
    · subst hk
      rw [Function.update_same]
      have hlt := hinv.1 hopen
      have hlen : ∀ b x, (StatusRequest.bucket
          ⟨b, (L c.key).votes ++ [(c.statusCode, c.oracle)]⟩ x).length =
          ((L c.key).bucket x).length + (if c.statusCode = x then 1 else 0) := by
        intro b x
        rw [bucket_append]
        rfl
      constructor
      · intro hcl x
        simp only [decide_eq_false_iff_not, not_le] at hcl
        rw [hlen] at hcl ⊢
        by_cases hx : c.statusCode = x
        · subst hx; simpa using hcl
        · simpa [hx] using hlt x
      · intro x y hx hy
        rw [hlen] at hx hy
        have h1 := hlt x
        have h2 := hlt y
        by_cases hxc : c.statusCode = x
        · by_cases hyc : c.statusCode = y
          · rw [← hxc, ← hyc]
          · simp [hyc] at hy; omega
        · simp [hxc] at hx; omega
    · rw [Function.update_noteq hk]; exact hinv

theorem submitAll_closed (MIN : Nat) (reg : Address → Option IndexTriple)
    (calls : List Submission) (L : RequestLedger) (key : RequestKey)
    (hclosed : (L key).closed = true) :
    submitAll MIN reg L calls key = L key := by
  induction calls generalizing L with
  | nil => rfl
  | cons c rest ih =>
    rw [submitAll_cons, ih _ (by rw [submitStep_closed MIN reg L c key hclosed]; exact hclosed),
      submitStep_closed MIN reg L c key hclosed]

theorem submitAll_inv (MIN : Nat) (reg : Address → Option IndexTriple)
    (calls : List Submission) (L : RequestLedger) (key : RequestKey)
    (hinv : RequestInv MIN (L key)) :
    RequestInv MIN (submitAll MIN reg L calls key) := by
  induction calls generalizing L with
  | nil => exact hinv
  | cons c rest ih =>
    rw [submitAll_cons]
    exact ih _ (submitStep_inv MIN reg L c key hinv)

theorem submit_closed (MIN : Nat) (reg : Address → Option IndexTriple) (L : RequestLedger)
    (c : Submission) (hclosed : (L c.key).closed = true) :
    (∃ e, submit MIN reg L c = Except.error e) ∧
    (∀ t, reg c.oracle = some t → indexMatches t c.index = true →
      submit MIN reg L c = Except.error SubmitError.RequestClosed) := by
  unfold submit
  cases hreg : reg c.oracle with
  | none => exact ⟨⟨_, rfl⟩, fun t ht => by cases ht⟩
  | some t =>
    simp only
    by_cases hm : indexMatches t c.index = false
    · rw [if_pos hm]
      refine ⟨⟨_, rfl⟩, ?_⟩
      intro t' ht' hm'
      cases ht'
      rw [hm] at hm'
      cases hm'
    · rw [if_neg hm, if_pos hclosed]
      exact ⟨⟨_, rfl⟩, fun _ _ _ => rfl⟩

/-- C4, as the operation has it: from a ledger in which the request of `key` is
open and has no vote,
after every sequence of `submit` calls processed one after another at most one
status-code bucket of `key` has `MIN_RESPONSES` members; when one has, the
request is closed, and after any further calls the record of `key` is still
the same, every `submit` for `key` fails, whatever its status code, and it
fails with `RequestClosed` when it comes from a registered oracle whose
triple holds the index of `key`. -/
theorem submit_at_most_one_bucket_reaches_quorum (MIN_RESPONSES : Nat)
    (hMIN : 0 < MIN_RESPONSES) (registry : Address → Option IndexTriple)
    (ledger : RequestLedger) (key : RequestKey) (hfresh : ledger key = ⟨false, []⟩)
    (calls : List Submission) :
    (∀ c1 c2,
      MIN_RESPONSES ≤ ((submitAll MIN_RESPONSES registry ledger calls key).bucket c1).length →
      MIN_RESPONSES ≤ ((submitAll MIN_RESPONSES registry ledger calls key).bucket c2).length →
      c1 = c2) ∧
    (∀ c,
      MIN_RESPONSES ≤ ((submitAll MIN_RESPONSES registry ledger calls key).bucket c).length →
      (submitAll MIN_RESPONSES registry ledger calls key).closed = true ∧
      ∀ (later : List Submission) (oracle : Address) (statusCode : Nat),
        submitAll MIN_RESPONSES registry
            (submitAll MIN_RESPONSES registry ledger calls) later key =
          submitAll MIN_RESPONSES registry ledger calls key ∧
        (∃ e, submit MIN_RESPONSES registry
            (submitAll MIN_RESPONSES registry
              (submitAll MIN_RESPONSES registry ledger calls) later)
            ⟨oracle, key.index, key.airline, key.flight, key.timestamp, statusCode⟩ =
              Except.error e) ∧
        (∀ t, registry oracle = some t → indexMatches t key.index = true →
          submit MIN_RESPONSES registry
            (submitAll MIN_RESPONSES registry
              (submitAll MIN_RESPONSES registry ledger calls) later)
            ⟨oracle, key.index, key.airline, key.flight, key.timestamp, statusCode⟩ =
              Except.error SubmitError.RequestClosed)) := by
  have hinv0 : RequestInv MIN_RESPONSES (ledger key) := by
    rw [hfresh]
    constructor
    · intro _ c; simpa [StatusRequest.bucket] using hMIN
    · intro c1 c2 h1 _
      simp [StatusRequest.bucket] at h1
      omega
  have hinv := submitAll_inv MIN_RESPONSES registry calls ledger key hinv0
  refine ⟨hinv.2, ?_⟩
  intro c hc
  have hclosed : (submitAll MIN_RESPONSES registry ledger calls key).closed = true := by
    by_contra hopen
    have := hinv.1 (by simpa using hopen) c
    omega
  refine ⟨hclosed, ?_⟩
  intro later oracle statusCode
  have hsame := submitAll_closed MIN_RESPONSES registry later _ key hclosed
  have hcl' : (submitAll MIN_RESPONSES registry
      (submitAll MIN_RESPONSES registry ledger calls) later
      (Submission.key ⟨oracle, key.index, key.airline, key.flight, key.timestamp,
        statusCode⟩)).closed = true := by
    show (submitAll MIN_RESPONSES registry
      (submitAll MIN_RESPONSES registry ledger calls) later key).closed = true
    rw [hsame]; exact hclosed
  have := submit_closed MIN_RESPONSES registry _
    ⟨oracle, key.index, key.airline, key.flight, key.timestamp, statusCode⟩ hcl'
  exact ⟨hsame, this.1, this.2⟩

/-- C4, at a concrete input: three oracles vote 20 for the sample key, the
request is closed, and the vote 10 of a fourth oracle fails with
`RequestClosed`. -/
theorem submit_at_most_one_bucket_reaches_quorum_witness :
    (submitAll 3 sampleRegistry emptyLedger
      [sampleSubmission 101 20, sampleSubmission 102 20, sampleSubmission 103 20]
      sampleKey).closed = true ∧
    submit 3 sampleRegistry
      (submitAll 3 sampleRegistry
        (submitAll 3 sampleRegistry emptyLedger
          [sampleSubmission 101 20, sampleSubmission 102 20, sampleSubmission 103 20]) [])
      (sampleSubmission 104 10) = Except.error SubmitError.RequestClosed :=
  have h := (submit_at_most_one_bucket_reaches_quorum 3 (by decide) sampleRegistry emptyLedger
    sampleKey rfl
    [sampleSubmission 101 20, sampleSubmission 102 20, sampleSubmission 103 20]).2 20
    (by decide)
  ⟨h.1, (h.2 [] 104 10).2.2 ⟨7, 7, 7⟩ (by decide) (by decide)⟩

/-- C4 refuted: three oracles vote 20 for the sample key, the bucket of 20 has
three members and the request is closed; a later submit for that key from the
unregistered identity 999 fails with `UnknownOracle` and one from the oracle
105, whose triple does not hold the index 7, fails with `IndexMismatch`:
neither fails with `RequestClosed`. -/
theorem submit_after_close_not_always_RequestClosed :
    3 ≤ ((submitAll 3 sampleRegistry emptyLedger
      [sampleSubmission 101 20, sampleSubmission 102 20, sampleSubmission 103 20]
      sampleKey).bucket 20).length ∧
    (submitAll 3 sampleRegistry emptyLedger
      [sampleSubmission 101 20, sampleSubmission 102 20, sampleSubmission 103 20]
      sampleKey).closed = true ∧
    submit 3 sampleRegistry
      (submitAll 3 sampleRegistry emptyLedger
        [sampleSubmission 101 20, sampleSubmission 102 20, sampleSubmission 103 20])
      (sampleSubmission 999 20) = Except.error SubmitError.UnknownOracle ∧
    submit 3 sampleRegistry
      (submitAll 3 sampleRegistry emptyLedger
        [sampleSubmission 101 20, sampleSubmission 102 20, sampleSubmission 103 20])
      (sampleSubmission 105 20) = Except.error SubmitError.IndexMismatch ∧
    ¬ (submit 3 sampleRegistry
      (submitAll 3 sampleRegistry emptyLedger
        [sampleSubmission 101 20, sampleSubmission 102 20, sampleSubmission 103 20])
      (sampleSubmission 999 20) = Except.error SubmitError.RequestClosed) := by
  have h999 : submit 3 sampleRegistry
      (submitAll 3 sampleRegistry emptyLedger
        [sampleSubmission 101 20, sampleSubmission 102 20, sampleSubmission 103 20])
      (sampleSubmission 999 20) = Except.error SubmitError.UnknownOracle := rfl
  refine ⟨by decide, by decide, h999, rfl, ?_⟩
  rw [h999]
  intro h
  cases h

end FlightSurety
